import Mathlib

/-!
Verification of the chainsaw test orchestration core.

Shallow embedding of:
* the kubectl collector command builders
  (pkg/engine/kubectl/logs.go and pkg/runner/kubectl/describe.go),
* the namespace provisioner, the scenario expander and the test
  scheduler with fail-fast and outcome counters
  (the testsProcessor.Run function of the processors package).

External collaborators (the JMESPath binding resolver, the resource
mapper, the cluster client) are abstracted as function parameters, so
every theorem quantifies over their behaviour.
-/

namespace Chainsaw

/-- Result of resolving one template expression against a binding
context (the external helpers apibindings.String and
apitemplate.ConvertString): either the resolved literal string or a
resolution error. -/
def Resolver : Type := String → Except String String

/-- The v1alpha1.PodLogs collector spec: the template expression fields
Name, Namespace, Selector, Container, plus the optional Tail line count
(a nullable int pointer in the source). -/
structure PodLogs where
  name : String
  nspace : String
  selector : String
  container : String
  tail : Option Int
deriving DecidableEq, Repr

/-- Shallow embedding of Logs from pkg/engine/kubectl/logs.go.
The four calls apibindings.String (collector field) bindings are
abstracted as the resolver res applied to the field; a nil collector
pointer is the none case.  The result pairs the entrypoint with the
argv list. -/
def Logs (res : Resolver) (collector : Option PodLogs) :
    Except String (String × List String) :=
  match collector with
  | none => .error "collector is null"
  | some c =>
    match res c.name with
    | .error e => .error e
    | .ok name =>
      match res c.nspace with
      | .error e => .error e
      | .ok nspace =>
        match res c.selector with
        | .error e => .error e
        | .ok selector =>
          match res c.container with
          | .error e => .error e
          | .ok container =>
            if name = "" ∧ selector = "" then
              .error "a name or selector must be specified"
            else if name ≠ "" ∧ selector ≠ "" then
              .error "name cannot be provided when a selector is specified"
            else
              let args := ["logs", "--prefix"]
              let args := if name ≠ "" then args ++ [name]
                else if selector ≠ "" then args ++ ["-l", selector]
                else args
              let nspace := if nspace = "" then "$NAMESPACE" else nspace
              let args := args ++ ["-n", nspace]
              let args := if container = "" then args ++ ["--all-containers"]
                else args ++ ["-c", container]
              let args := match c.tail with
                | some t => args ++ ["--tail", toString t]
                | none => args
              .ok ("kubectl", args)

/-- The v1alpha1.Describe collector spec: template expression fields
Name, Namespace, Selector, Cluster, an opaque resource reference, an
opaque timeout and the optional ShowEvents flag. -/
structure DescribeSpec where
  name : String
  nspace : String
  selector : String
  cluster : String
  resourceRef : String
  timeout : Option Int
  showEvents : Option Bool
deriving DecidableEq, Repr

/-- The v1alpha1.Command value produced by the describe builder. -/
structure Command where
  cluster : String
  timeout : Option Int
  entrypoint : String
  args : List String
deriving DecidableEq, Repr

/-- The external mapResource collaborator: maps a resource reference to
the resolved resource kind string and whether it is cluster scoped. -/
def ResourceMapper : Type := String → Except String (String × Bool)

/-- Shallow embedding of Describe from pkg/runner/kubectl/describe.go.
Binding resolution and resource mapping are abstracted as the res and
mapResource parameters; a nil collector pointer is the none case. -/
def Describe (res : Resolver) (mapResource : ResourceMapper)
    (collector : Option DescribeSpec) : Except String Command :=
  match collector with
  | none => .error "collector is null"
  | some c =>
    match res c.name with
    | .error e => .error e
    | .ok name =>
      match res c.nspace with
      | .error e => .error e
      | .ok nspace =>
        match res c.selector with
        | .error e => .error e
        | .ok selector =>
          match res c.cluster with
          | .error e => .error e
          | .ok cluster =>
            if name ≠ "" ∧ selector ≠ "" then
              .error "name cannot be provided when a selector is specified"
            else
              match mapResource c.resourceRef with
              | .error e => .error e
              | .ok (resource, clustered) =>
                let args := ["describe", resource]
                let args := if name ≠ "" then args ++ [name]
                  else if selector ≠ "" then args ++ ["-l", selector]
                  else args
                let args :=
                  if !clustered then
                    if nspace = "*" then args ++ ["--all-namespaces"]
                    else args ++ ["-n", if nspace = "" then "$NAMESPACE" else nspace]
                  else args
                let args := match c.showEvents with
                  | some b =>
                      args ++ ["--show-events=" ++ (if b then "true" else "false")]
                  | none => args
                .ok { cluster := cluster, timeout := c.timeout,
                      entrypoint := "kubectl", args := args }

/-- Claim C10: for a nil collector both builders return the
"collector is null" error, for every resolver and every resource
mapper; in particular no binding is resolved and no command is
produced. -/
theorem nil_collector_error (res : Resolver) (mp : ResourceMapper) :
    Logs res none = .error "collector is null" ∧
    Describe res mp none = .error "collector is null" :=
  ⟨rfl, rfl⟩

/-- Claim C8: whenever the resolved name and the resolved selector are
both non empty, the log builder and the describe builder each fail with
the "name cannot be provided when a selector is specified" validation
error, whatever the resource mapper would answer. -/
theorem both_name_and_selector_error (res : Resolver) (mp : ResourceMapper)
    (cl : PodLogs) (cd : DescribeSpec) (n s x1 x2 x3 x4 : String)
    (hln : res cl.name = .ok n) (hlns : res cl.nspace = .ok x1)
    (hls : res cl.selector = .ok s) (hlc : res cl.container = .ok x2)
    (hdn : res cd.name = .ok n) (hdns : res cd.nspace = .ok x3)
    (hds : res cd.selector = .ok s) (hdc : res cd.cluster = .ok x4)
    (hn : n ≠ "") (hs : s ≠ "") :
    Logs res (some cl) = .error "name cannot be provided when a selector is specified" ∧
    Describe res mp (some cd) = .error "name cannot be provided when a selector is specified" := by
  constructor
  · simp [Logs, hln, hlns, hls, hlc, hn, hs]
  · simp [Describe, hdn, hdns, hds, hdc, hn, hs]

/-- Witness for claim C8 at a concrete collector and the identity
resolver. -/
theorem both_name_and_selector_error_witness :
    Logs (fun e => .ok e) (some ⟨"pod1", "ns1", "app=x", "c1", none⟩) =
      .error "name cannot be provided when a selector is specified" ∧
    Describe (fun e => .ok e) (fun _ => .ok ("pods", false))
        (some ⟨"pod1", "ns1", "app=x", "", "pods", none, none⟩) =
      .error "name cannot be provided when a selector is specified" :=
  both_name_and_selector_error (fun e => .ok e) (fun _ => .ok ("pods", false))
    ⟨"pod1", "ns1", "app=x", "c1", none⟩ ⟨"pod1", "ns1", "app=x", "", "pods", none, none⟩
    "pod1" "app=x" "ns1" "c1" "ns1" ""
    rfl rfl rfl rfl rfl rfl rfl rfl (by decide) (by decide)

/-- Counterexample to claim C1 as stated: with resolved name and
selector both empty the describe builder does not fail with the
"a name or selector must be specified" validation error; it succeeds
and produces a command. -/
theorem describe_accepts_empty_name_and_selector_cex :
    Describe (fun _ => .ok "") (fun _ => .ok ("pods", false))
        (some ⟨"", "", "", "", "pods", none, none⟩) =
      .ok { cluster := "", timeout := none, entrypoint := "kubectl",
            args := ["describe", "pods", "-n", "$NAMESPACE"] } ∧
    Describe (fun _ => .ok "") (fun _ => .ok ("pods", false))
        (some ⟨"", "", "", "", "pods", none, none⟩) ≠
      .error "a name or selector must be specified" := by
  have h1 : Describe (fun _ => .ok "") (fun _ => .ok ("pods", false))
      (some ⟨"", "", "", "", "pods", none, none⟩) =
      .ok { cluster := "", timeout := none, entrypoint := "kubectl",
            args := ["describe", "pods", "-n", "$NAMESPACE"] } := rfl
  exact ⟨h1, by rw [h1]; simp⟩

/-- Claim C1 amended: for every collector spec whose resolved name and
resolved selector are both empty, the log builder fails with the
"a name or selector must be specified" validation error and produces
no command; the describe builder performs no such check and, when the
resource mapping succeeds, produces a command. -/
theorem empty_name_and_selector (res : Resolver) (mp : ResourceMapper)
    (cl : PodLogs) (cd : DescribeSpec) (x1 x2 x3 x4 r : String) (clustered : Bool)
    (hln : res cl.name = .ok "") (hlns : res cl.nspace = .ok x1)
    (hls : res cl.selector = .ok "") (hlc : res cl.container = .ok x2)
    (hdn : res cd.name = .ok "") (hdns : res cd.nspace = .ok x3)
    (hds : res cd.selector = .ok "") (hdc : res cd.cluster = .ok x4)
    (hm : mp cd.resourceRef = .ok (r, clustered)) :
    Logs res (some cl) = .error "a name or selector must be specified" ∧
    ∃ cmd, Describe res mp (some cd) = .ok cmd := by
  constructor
  · simp [Logs, hln, hlns, hls, hlc]
  · simp only [Describe, hdn, hdns, hds, hdc, hm]
    exact ⟨_, by rw [if_neg (by simp)]⟩

/-- Witness for amended claim C1 at concrete collectors whose fields
all resolve to the empty string. -/
theorem empty_name_and_selector_witness :
    Logs (fun _ => .ok "") (some ⟨"", "", "", "", none⟩) =
      .error "a name or selector must be specified" ∧
    ∃ cmd, Describe (fun _ => .ok "") (fun _ => .ok ("pods", false))
        (some ⟨"", "", "", "", "pods", none, none⟩) = .ok cmd :=
  empty_name_and_selector (fun _ => .ok "") (fun _ => .ok ("pods", false))
    ⟨"", "", "", "", none⟩ ⟨"", "", "", "", "pods", none, none⟩
    "" "" "" "" "pods" false rfl rfl rfl rfl rfl rfl rfl rfl rfl

/-- Claim C2: for every valid log collector spec (exactly one of
name and selector resolves non empty, all resolutions succeeding) the
produced command is kubectl with argv logs, prefix flag, then the name
or the selector flag pair, then the namespace flag pair defaulting to
the placeholder, then the container handling, then the optional tail
pair, in exactly that order. -/
theorem logs_argv_exact (res : Resolver) (c : PodLogs) (n ns s co : String)
    (hn : res c.name = .ok n) (hns : res c.nspace = .ok ns)
    (hs : res c.selector = .ok s) (hc : res c.container = .ok co)
    (hv : (n = "" ∧ s ≠ "") ∨ (n ≠ "" ∧ s = "")) :
    Logs res (some c) = .ok ("kubectl",
      ["logs", "--prefix"] ++
      (if n ≠ "" then [n] else ["-l", s]) ++
      ["-n", if ns = "" then "$NAMESPACE" else ns] ++
      (if co = "" then ["--all-containers"] else ["-c", co]) ++
      (match c.tail with
        | some t => ["--tail", toString t]
        | none => [])) := by
  obtain ⟨cn, cns, cs, cc, ct⟩ := c
  simp only at hn hns hs hc
  rcases ct with _ | t <;>
    rcases hv with ⟨h1, h2⟩ | ⟨h1, h2⟩ <;>
      by_cases h3 : co = "" <;>
        simp [Logs, hn, hns, hs, hc, h1, h2, h3]

/-- Witness for claim C2: a concrete spec with a name, empty selector,
empty container and a tail count of 5, under the identity resolver. -/
theorem logs_argv_exact_witness :
    Logs (fun e => .ok e) (some ⟨"pod1", "ns1", "", "", some 5⟩) =
      .ok ("kubectl", ["logs", "--prefix"] ++
        (if "pod1" ≠ "" then ["pod1"] else ["-l", ""]) ++
        ["-n", if "ns1" = "" then "$NAMESPACE" else "ns1"] ++
        (if "" = "" then ["--all-containers"] else ["-c", ""]) ++
        (match (some (5 : Int)) with
          | some t => ["--tail", toString t]
          | none => [])) :=
  logs_argv_exact (fun e => .ok e) ⟨"pod1", "ns1", "", "", some 5⟩
    "pod1" "ns1" "" "" rfl rfl rfl rfl (Or.inr ⟨by decide, rfl⟩)

/-- Claim C7: for every valid describe collector spec the produced
command has entrypoint kubectl and argv describe plus resource, then
the name or selector part, then nothing when the resource is cluster
scoped, the all namespaces flag when the namespace resolves to a star,
the namespace flag pair with the placeholder when it resolves empty and
with the resolved value otherwise, then the show events flag exactly
when the option is set. -/
theorem describe_argv_exact (res : Resolver) (mp : ResourceMapper)
    (c : DescribeSpec) (n ns s cl r : String) (clustered : Bool)
    (hn : res c.name = .ok n) (hns : res c.nspace = .ok ns)
    (hs : res c.selector = .ok s) (hcl : res c.cluster = .ok cl)
    (hm : mp c.resourceRef = .ok (r, clustered))
    (hv : ¬(n ≠ "" ∧ s ≠ "")) :
    Describe res mp (some c) = .ok
      { cluster := cl, timeout := c.timeout, entrypoint := "kubectl",
        args := ["describe", r] ++
          (if n ≠ "" then [n] else if s ≠ "" then ["-l", s] else []) ++
          (if clustered then []
            else if ns = "*" then ["--all-namespaces"]
            else ["-n", if ns = "" then "$NAMESPACE" else ns]) ++
          (match c.showEvents with
            | some b => ["--show-events=" ++ (if b then "true" else "false")]
            | none => []) } := by
  obtain ⟨c1, c2, c3, c4, c5, c6, c7⟩ := c
  simp only at hn hns hs hcl hm ⊢
  rcases c7 with _ | b <;>
    rcases clustered with _ | _ <;>
      by_cases h1 : n = "" <;>
        by_cases h2 : s = "" <;>
          by_cases h3 : ns = "*" <;>
            by_cases h4 : ns = "" <;>
              simp_all [Describe]

/-- Witness for claim C7: a cluster scoped resource with a non empty
namespace field and show events set; the namespace flags are absent and
the show events flag is present. -/
theorem describe_argv_exact_witness :
    Describe (fun e => .ok e) (fun _ => .ok ("clusterroles", true))
        (some ⟨"cr1", "ignored", "", "", "rbac", none, some true⟩) =
      .ok { cluster := "", timeout := none, entrypoint := "kubectl",
            args := ["describe", "clusterroles"] ++
              (if "cr1" ≠ "" then ["cr1"] else if "" ≠ "" then ["-l", ""] else []) ++
              (if true then []
                else if "ignored" = "*" then ["--all-namespaces"]
                else ["-n", if "ignored" = "" then "$NAMESPACE" else "ignored"]) ++
              (match (some true : Option Bool) with
                | some b => ["--show-events=" ++ (if b then "true" else "false")]
                | none => []) } :=
  describe_argv_exact (fun e => .ok e) (fun _ => .ok ("clusterroles", true))
    ⟨"cr1", "ignored", "", "", "rbac", none, some true⟩
    "cr1" "ignored" "" "" "clusterroles" true
    rfl rfl rfl rfl rfl (by decide)

/-- Observable side effects of the namespace provisioning prologue of
testsProcessor.Run, in program order: the cluster fetch of the
namespace object, the registration of the deferred deletion cleanup,
the create call, and a fatal failure (failer.FailNow, which aborts the
run). -/
inductive NsEvent where
  | get
  | registerDeleteCleanup
  | create
  | fatal
deriving DecidableEq, BEq, Repr

/-- The configuration consumed by the provisioner: the configured
namespace name (empty means no provisioning), whether a namespace
template is configured, and the result of the skip delete cleanup
policy.  The policy check cleanup.Skip (config.Cleanup.SkipDelete,
nil, nil) lives outside this excerpt; its boolean outcome is taken as
the skipDelete field. -/
structure NsConfig where
  nsName : String
  hasTemplate : Bool
  skipDelete : Bool
deriving DecidableEq, Repr

/-- Outcome of the cluster Get call for the namespace object: found,
the is-not-found error, or any other error. -/
inductive GetOutcome where
  | found
  | notFound
  | otherError
deriving DecidableEq, Repr

/-- Shallow embedding of the namespace provisioning prologue of
testsProcessor.Run: guarded by a non nil cluster client and a non
empty configured namespace name, an optional template merge whose
failure is fatal, then the fetch; on not found the deletion cleanup is
registered (unless the skip delete policy applies) and then the create
call is issued, itself fatal on failure; any other fetch error is
fatal; a successful fetch does nothing further. -/
def provisionTrace (cfg : NsConfig) (clientPresent mergeOk : Bool)
    (get : GetOutcome) (createOk : Bool) : List NsEvent :=
  if clientPresent then
    if cfg.nsName ≠ "" then
      if cfg.hasTemplate ∧ mergeOk = false then [.fatal]
      else
        NsEvent.get ::
          (match get with
            | .found => []
            | .otherError => [.fatal]
            | .notFound =>
                (if cfg.skipDelete then [] else [.registerDeleteCleanup]) ++
                  NsEvent.create :: (if createOk then [] else [.fatal]))
    else []
  else []

/-- Claim C5: whenever the fetch of the configured namespace succeeds
the provisioner performs no create call and registers no deletion
cleanup, on that run and on a repeated run, and existence is never
treated as an error. -/
theorem namespace_exists_idempotent (cfg : NsConfig) (cp mOk cOk mOk2 cOk2 : Bool)
    (hm : cfg.hasTemplate = true → mOk = true)
    (hm2 : cfg.hasTemplate = true → mOk2 = true) :
    NsEvent.create ∉ provisionTrace cfg cp mOk .found cOk ∧
    NsEvent.registerDeleteCleanup ∉ provisionTrace cfg cp mOk .found cOk ∧
    NsEvent.fatal ∉ provisionTrace cfg cp mOk .found cOk ∧
    NsEvent.create ∉
      provisionTrace cfg cp mOk .found cOk ++ provisionTrace cfg cp mOk2 .found cOk2 ∧
    NsEvent.registerDeleteCleanup ∉
      provisionTrace cfg cp mOk .found cOk ++ provisionTrace cfg cp mOk2 .found cOk2 := by
  have key : ∀ m : Bool, (cfg.hasTemplate = true → m = true) →
      provisionTrace cfg cp m .found cOk = [] ∨
      provisionTrace cfg cp m .found cOk = [NsEvent.get] := by
    intro m h
    unfold provisionTrace
    rcases cp with _ | _
    · exact Or.inl rfl
    · by_cases hname : cfg.nsName = ""
      · simp [hname]
      · rcases ht : cfg.hasTemplate with _ | _
        · simp [hname, ht]
        · simp [hname, ht, h ht]
  have k1 := key mOk hm
  have k2 : provisionTrace cfg cp mOk2 .found cOk2 = [] ∨
      provisionTrace cfg cp mOk2 .found cOk2 = [NsEvent.get] := by
    have : ∀ m c : Bool, (cfg.hasTemplate = true → m = true) →
        provisionTrace cfg cp m .found c = [] ∨
        provisionTrace cfg cp m .found c = [NsEvent.get] := by
      intro m c h
      unfold provisionTrace
      rcases cp with _ | _
      · exact Or.inl rfl
      · by_cases hname : cfg.nsName = ""
        · simp [hname]
        · rcases ht : cfg.hasTemplate with _ | _
          · simp [hname, ht]
          · simp [hname, ht, h ht]
    exact this mOk2 cOk2 hm2
  rcases k1 with h1 | h1 <;> rcases k2 with h2 | h2 <;> simp [h1, h2]

/-- Witness for claim C5 at a concrete configuration with a template,
a present client and a failing create path. -/
theorem namespace_exists_idempotent_witness :
    NsEvent.create ∉ provisionTrace ⟨"chainsaw-ns", true, false⟩ true true .found false ∧
    NsEvent.registerDeleteCleanup ∉
      provisionTrace ⟨"chainsaw-ns", true, false⟩ true true .found false ∧
    NsEvent.fatal ∉ provisionTrace ⟨"chainsaw-ns", true, false⟩ true true .found false ∧
    NsEvent.create ∉
      provisionTrace ⟨"chainsaw-ns", true, false⟩ true true .found false ++
        provisionTrace ⟨"chainsaw-ns", true, false⟩ true true .found true ∧
    NsEvent.registerDeleteCleanup ∉
      provisionTrace ⟨"chainsaw-ns", true, false⟩ true true .found false ++
        provisionTrace ⟨"chainsaw-ns", true, false⟩ true true .found true :=
  namespace_exists_idempotent ⟨"chainsaw-ns", true, false⟩ true true false true true
    (by decide) (by decide)

/-- Claim C6: when the namespace fetch fails with not found and the
skip delete policy does not apply, the deferred deletion cleanup is
registered strictly before the create call is issued, also when the
create itself fails. -/
theorem cleanup_registered_before_create (cfg : NsConfig) (mOk cOk : Bool)
    (hname : cfg.nsName ≠ "") (hskip : cfg.skipDelete = false)
    (hm : cfg.hasTemplate = true → mOk = true) :
    provisionTrace cfg true mOk .notFound cOk =
      [NsEvent.get, NsEvent.registerDeleteCleanup, NsEvent.create] ++
        (if cOk then [] else [NsEvent.fatal]) ∧
    (provisionTrace cfg true mOk .notFound cOk).indexOf NsEvent.registerDeleteCleanup <
      (provisionTrace cfg true mOk .notFound cOk).indexOf NsEvent.create := by
  have heq : provisionTrace cfg true mOk .notFound cOk =
      [NsEvent.get, NsEvent.registerDeleteCleanup, NsEvent.create] ++
        (if cOk then [] else [NsEvent.fatal]) := by
    unfold provisionTrace
    rcases ht : cfg.hasTemplate with _ | _
    · simp [hname, ht, hskip]
    · simp [hname, ht, hskip, hm ht]
  refine ⟨heq, ?_⟩
  rw [heq]
  rcases cOk with _ | _ <;> decide

/-- Witness for claim C6 at a concrete configuration without a
template, with a failing create call. -/
theorem cleanup_registered_before_create_witness :
    provisionTrace ⟨"chainsaw-ns", false, false⟩ true true .notFound false =
      [NsEvent.get, NsEvent.registerDeleteCleanup, NsEvent.create] ++
        (if false then [] else [NsEvent.fatal]) ∧
    (provisionTrace ⟨"chainsaw-ns", false, false⟩ true true .notFound false).indexOf
        NsEvent.registerDeleteCleanup <
      (provisionTrace ⟨"chainsaw-ns", false, false⟩ true true .notFound false).indexOf
        NsEvent.create :=
  cleanup_registered_before_create ⟨"chainsaw-ns", false, false⟩ true false
    (by decide) rfl (by decide)

/-- A named binding as declared on a test or a scenario. -/
structure Binding where
  name : String
  value : String
deriving DecidableEq, Repr

/-- A declared scenario: a list of its own bindings. -/
structure Scenario where
  bindings : List Binding
deriving DecidableEq, Repr

/-- The spec of a v1alpha1.Test: base bindings, declared scenarios, the
optional Concurrent flag and the optional Skip flag. -/
structure TestSpec where
  bindings : List Binding
  scenarios : List Scenario
  concurrent : Option Bool
  skip : Option Bool
deriving DecidableEq, Repr

/-- A discovery.Test: the possibly nil pointer to the test body. -/
structure DiscoveryTest where
  test : Option TestSpec
deriving DecidableEq, Repr

/-- The TestInfo record registered as the test binding: the 1 based
test ordinal and the 1 based scenario ordinal. -/
structure TestInfo where
  id : Nat
  scenarioId : Nat
deriving DecidableEq, Repr

/-- The deep copied instance built for one scenario in the expansion
loop of testsProcessor.Run: the scenarios are cleared and the bindings
become the scenario bindings followed by the base bindings. -/
def mkScenarioInstance (spec : TestSpec) (sc : Scenario) : DiscoveryTest :=
  { test := some { spec with scenarios := [], bindings := sc.bindings ++ spec.bindings } }

/-- Shallow embedding of the scenario expansion of one discovered test
in testsProcessor.Run: a nil test body expands to nothing; a body with
no declared scenarios expands to the test itself; otherwise each
scenario yields a copy of the test with the scenarios cleared and the
bindings set to the scenario bindings followed by the base bindings. -/
def scenarioInstances (t : DiscoveryTest) : List DiscoveryTest :=
  match t.test with
  | none => []
  | some spec =>
    match spec.scenarios with
    | [] => [t]
    | scs => scs.map (mkScenarioInstance spec)

/-- Numbering of the expanded instances of one test: the inner loop of
testsProcessor.Run assigns ScenarioId equal to the 0 based loop index
plus one; testId is already the 1 based test ordinal. -/
def numberScenarios (testId sIdx : Nat) :
    List DiscoveryTest → List (TestInfo × DiscoveryTest)
  | [] => []
  | x :: xs =>
      ({ id := testId, scenarioId := sIdx + 1 }, x) :: numberScenarios testId (sIdx + 1) xs

/-- All numbered instances of the test at 0 based declaration index i:
TestInfo carries Id equal to i plus one. -/
def instancesFor (i : Nat) (t : DiscoveryTest) : List (TestInfo × DiscoveryTest) :=
  numberScenarios (i + 1) 0 (scenarioInstances t)

/-- The full instance list scheduled by testsProcessor.Run, starting
with declaration index i: the outer loop over the discovered tests
followed by the inner loop over the expanded scenarios. -/
def runInstances : Nat → List DiscoveryTest → List (TestInfo × DiscoveryTest)
  | _, [] => []
  | i, t :: ts => instancesFor i t ++ runInstances (i + 1) ts

theorem numberScenarios_getElem (testId sIdx : Nat) (l : List DiscoveryTest) (k : Nat) :
    (numberScenarios testId sIdx l)[k]? =
      l[k]?.map fun x => ({ id := testId, scenarioId := sIdx + k + 1 }, x) := by
  induction l generalizing sIdx k with
  | nil => simp [numberScenarios]
  | cons x xs ih =>
    rcases k with _ | k
    · simp [numberScenarios]
    · simp only [numberScenarios, List.getElem?_cons_succ, ih (sIdx + 1) k]
      have : sIdx + 1 + k = sIdx + (k + 1) := by omega
      rw [this]

theorem numberScenarios_length (testId sIdx : Nat) (l : List DiscoveryTest) :
    (numberScenarios testId sIdx l).length = l.length := by
  induction l generalizing sIdx with
  | nil => rfl
  | cons x xs ih => simp [numberScenarios, ih]

theorem runInstances_append (i : Nat) (a b : List DiscoveryTest) :
    runInstances i (a ++ b) = runInstances i a ++ runInstances (i + a.length) b := by
  induction a generalizing i with
  | nil => simp [runInstances]
  | cons t ts ih =>
    simp only [List.cons_append, runInstances, List.append_assoc, List.length_cons,
      List.append_eq]
    rw [show i + (ts.length + 1) = i + 1 + ts.length from by omega, ih (i + 1)]

/-- Claim C4: a discovered test with a present body and no declared
scenarios yields exactly one instance, the test itself, with scenario
ordinal one; with scenarios it yields one instance per scenario, in
order, each carrying the scenario bindings followed by the base
bindings and scenario ordinals counting from one; the test ordinal of
every instance is the 1 based declaration position of its test in the
discovered list. -/
theorem scenario_expansion_spec (pre suf : List DiscoveryTest)
    (t : DiscoveryTest) (spec : TestSpec) (i : Nat)
    (ht : t.test = some spec) :
    (spec.scenarios = [] →
      scenarioInstances t = [t] ∧
      instancesFor i t = [({ id := i + 1, scenarioId := 1 }, t)]) ∧
    (scenarioInstances t).length =
      (if spec.scenarios = [] then 1 else spec.scenarios.length) ∧
    (∀ s : Nat, spec.scenarios ≠ [] →
      (instancesFor i t)[s]? =
        (spec.scenarios[s]?).map fun sc =>
          ({ id := i + 1, scenarioId := s + 1 }, mkScenarioInstance spec sc)) ∧
    runInstances 0 (pre ++ t :: suf) =
      runInstances 0 pre ++ instancesFor pre.length t ++
        runInstances (pre.length + 1) suf := by
  refine ⟨?_, ?_, ?_, ?_⟩
  · intro hsc
    constructor
    · simp [scenarioInstances, ht, hsc]
    · simp [instancesFor, scenarioInstances, ht, hsc, numberScenarios]
  · rcases hsc : spec.scenarios with _ | ⟨sc, scs⟩
    · simp [scenarioInstances, ht, hsc]
    · simp [scenarioInstances, ht, hsc]
  · intro s hsc
    rcases hl : spec.scenarios with _ | ⟨sc, scs⟩
    · exact absurd hl hsc
    · simp only [instancesFor, scenarioInstances, ht, hl, numberScenarios_getElem,
        Nat.zero_add, List.getElem?_map, Option.map_map]
      rfl
  · rw [runInstances_append]
    simp [runInstances, List.append_assoc]

/-- Witness for claim C4: a test with two scenarios at declaration
index zero; the second instance has scenario ordinal two and the
scenario bindings prepended to the base bindings. -/
theorem scenario_expansion_spec_witness :
    (instancesFor 0
      { test := some
          { bindings := [{ name := "b", value := "0" }],
            scenarios := [⟨[{ name := "s", value := "1" }]⟩, ⟨[{ name := "s", value := "2" }]⟩],
            concurrent := none, skip := none } })[1]? =
      some ({ id := 1, scenarioId := 2 },
        { test := some
            { bindings := [{ name := "s", value := "2" }, { name := "b", value := "0" }],
              scenarios := [], concurrent := none, skip := none } }) := by
  obtain ⟨-, -, h3, -⟩ := scenario_expansion_spec [] []
    { test := some
        { bindings := [{ name := "b", value := "0" }],
          scenarios := [⟨[{ name := "s", value := "1" }]⟩, ⟨[{ name := "s", value := "2" }]⟩],
          concurrent := none, skip := none } }
    { bindings := [{ name := "b", value := "0" }],
      scenarios := [⟨[{ name := "s", value := "1" }]⟩, ⟨[{ name := "s", value := "2" }]⟩],
      concurrent := none, skip := none }
    0 rfl
  have h := h3 1 (by decide)
  simpa [mkScenarioInstance] using h

/-- Outcome of one scheduled test instance as observed by the summary
cleanup: Skipped, Failed, or Passed. -/
inductive Outcome where
  | passed
  | failed
  | skipped
deriving DecidableEq, Repr

/-- One scheduled test instance as seen by the scheduling loop of
testsProcessor.Run: its resolved explicit Skip flag and the outcome its
own processor run would produce if it is allowed to run. -/
structure TestInstance where
  skip : Bool
  procResult : Outcome
deriving DecidableEq, Repr

/-- The two atomic points of one subtest spawned by t.Run, used to
model arbitrary interleavings of the parallel instances: start is the
subtest body beginning (cleanup registration, the Skip check and the
fail fast load happen here, and the body outcome is fixed here since
the shared flag is read nowhere later), finish is the cleanup boundary
(the LIFO cleanups: summary counter increments, then the fail fast
store on failure). -/
inductive SchedEvent where
  | start (i : Nat)
  | finish (i : Nat)
deriving DecidableEq, Repr

/-- Shared and bookkeeping state of one run: the atomic fail fast flag
shouldFailFast, the outcome fixed at the start of each started
instance, the set of instances whose cleanups have run, and the three
summary counters. -/
structure RunState where
  flag : Bool
  outcomes : List (Nat × Outcome)
  finished : List Nat
  passed : Nat
  failed : Nat
  skipped : Nat
deriving DecidableEq, Repr

/-- The state at the beginning of the scheduling loop: flag clear, no
instance started or finished, all counters zero. -/
def initState : RunState :=
  { flag := false, outcomes := [], finished := [], passed := 0, failed := 0, skipped := 0 }

/-- Lookup of the recorded outcome of instance i. -/
def lookupOutcome : List (Nat × Outcome) → Nat → Option Outcome
  | [], _ => none
  | (j, o) :: rest, i => if j = i then some o else lookupOutcome rest i

/-- The outcome of one subtest body given the fail fast configuration
and the flag value read at its start: the explicit Skip flag is checked
first (t.SkipNow), then the fail fast short circuit (t.SkipNow), and
otherwise the processor runs and yields its own result. -/
def decideOutcome (failFast flag : Bool) (inst : TestInstance) : Outcome :=
  if inst.skip then .skipped
  else if failFast && flag then .skipped
  else inst.procResult

/-- Effect of the start point of instance i: if the instance exists and
has not started yet, its outcome is fixed from the flag value read
now. -/
def startStep (failFast : Bool) (insts : List TestInstance) (st : RunState) (i : Nat) :
    RunState :=
  match insts[i]? with
  | none => st
  | some inst =>
    match lookupOutcome st.outcomes i with
    | some _ => st
    | none => { st with outcomes := (i, decideOutcome failFast st.flag inst) :: st.outcomes }

/-- Effect of the cleanup boundary of instance i, running its two
cleanups in LIFO order: the summary cleanup increments exactly the
counter matching the outcome (only when a summary is configured), and
the fail fast cleanup stores true into the shared flag when the
instance failed; the flag is never written otherwise. -/
def finishStep (hasSummary : Bool) (st : RunState) (i : Nat) : RunState :=
  match lookupOutcome st.outcomes i with
  | none => st
  | some o =>
    if i ∈ st.finished then st
    else
      { st with
        finished := i :: st.finished,
        passed := if hasSummary ∧ o = Outcome.passed then st.passed + 1 else st.passed,
        failed := if hasSummary ∧ o = Outcome.failed then st.failed + 1 else st.failed,
        skipped := if hasSummary ∧ o = Outcome.skipped then st.skipped + 1 else st.skipped,
        flag := st.flag || (o == Outcome.failed) }

/-- One interleaving step of the run. -/
def stepEvent (failFast hasSummary : Bool) (insts : List TestInstance)
    (st : RunState) : SchedEvent → RunState
  | .start i => startStep failFast insts st i
  | .finish i => finishStep hasSummary st i

/-- Execution of a whole interleaving of the run. -/
def runEvents (failFast hasSummary : Bool) (insts : List TestInstance)
    (st : RunState) (evs : List SchedEvent) : RunState :=
  evs.foldl (stepEvent failFast hasSummary insts) st

theorem lookupOutcome_cons (j : Nat) (o : Outcome) (l : List (Nat × Outcome)) (i : Nat) :
    lookupOutcome ((j, o) :: l) i = if j = i then some o else lookupOutcome l i := rfl

theorem startStep_flag (ff : Bool) (insts : List TestInstance) (st : RunState) (i : Nat) :
    (startStep ff insts st i).flag = st.flag := by
  unfold startStep
  split
  · rfl
  · split <;> rfl

theorem startStep_finished (ff : Bool) (insts : List TestInstance) (st : RunState) (i : Nat) :
    (startStep ff insts st i).finished = st.finished := by
  unfold startStep
  split
  · rfl
  · split <;> rfl

theorem finishStep_outcomes (hs : Bool) (st : RunState) (i : Nat) :
    (finishStep hs st i).outcomes = st.outcomes := by
  unfold finishStep
  split
  · rfl
  · split <;> rfl

theorem finishStep_flag_mono (hs : Bool) (st : RunState) (i : Nat)
    (h : st.flag = true) : (finishStep hs st i).flag = true := by
  unfold finishStep
  split
  · exact h
  · split
    · exact h
    · simp [h]

theorem stepEvent_flag_mono (ff hs : Bool) (insts : List TestInstance) (st : RunState)
    (e : SchedEvent) (h : st.flag = true) :
    (stepEvent ff hs insts st e).flag = true := by
  cases e with
  | start i => rw [stepEvent, startStep_flag]; exact h
  | finish i => exact finishStep_flag_mono hs st i h

theorem runEvents_flag_mono (ff hs : Bool) (insts : List TestInstance)
    (st : RunState) (evs : List SchedEvent) (h : st.flag = true) :
    (runEvents ff hs insts st evs).flag = true := by
  induction evs generalizing st with
  | nil => exact h
  | cons e es ih => exact ih _ (stepEvent_flag_mono ff hs insts st e h)

theorem startStep_lookup_persist (ff : Bool) (insts : List TestInstance) (st : RunState)
    (i j : Nat) (o : Outcome) (h : lookupOutcome st.outcomes j = some o) :
    lookupOutcome (startStep ff insts st i).outcomes j = some o := by
  unfold startStep
  split
  · exact h
  · split
    · exact h
    · rename_i inst hinst hnone
      rw [lookupOutcome_cons]
      by_cases hij : i = j
      · subst hij
        rw [hnone] at h
        cases h
      · simp [hij, h]

theorem stepEvent_lookup_persist (ff hs : Bool) (insts : List TestInstance) (st : RunState)
    (e : SchedEvent) (j : Nat) (o : Outcome) (h : lookupOutcome st.outcomes j = some o) :
    lookupOutcome (stepEvent ff hs insts st e).outcomes j = some o := by
  cases e with
  | start i => exact startStep_lookup_persist ff insts st i j o h
  | finish i => rw [stepEvent, finishStep_outcomes]; exact h

theorem runEvents_lookup_persist (ff hs : Bool) (insts : List TestInstance)
    (st : RunState) (evs : List SchedEvent) (j : Nat) (o : Outcome)
    (h : lookupOutcome st.outcomes j = some o) :
    lookupOutcome (runEvents ff hs insts st evs).outcomes j = some o := by
  induction evs generalizing st with
  | nil => exact h
  | cons e es ih => exact ih _ (stepEvent_lookup_persist ff hs insts st e j o h)

/-- Claim C3: with fail fast configured, the shared flag is set at the
cleanup boundary of every failing instance and is never cleared by any
later step; an instance whose start point reads the flag as set is
recorded as skipped without consulting its processor result; the
recorded outcome of an already started instance is never changed by
later steps; and an instance whose start point reads the flag as clear
is recorded with its own outcome, its explicit Skip flag honoured. -/
theorem fail_fast_flag_semantics (hs : Bool) (insts : List TestInstance) :
    (∀ (st : RunState) (evs : List SchedEvent), st.flag = true →
      (runEvents true hs insts st evs).flag = true) ∧
    (∀ (st : RunState) (i : Nat),
      lookupOutcome st.outcomes i = some Outcome.failed → i ∉ st.finished →
      (stepEvent true hs insts st (SchedEvent.finish i)).flag = true) ∧
    (∀ (st : RunState) (i : Nat) (inst : TestInstance), st.flag = true →
      insts[i]? = some inst → lookupOutcome st.outcomes i = none →
      lookupOutcome (stepEvent true hs insts st (SchedEvent.start i)).outcomes i =
        some Outcome.skipped) ∧
    (∀ (st : RunState) (evs : List SchedEvent) (i : Nat) (o : Outcome),
      lookupOutcome st.outcomes i = some o →
      lookupOutcome (runEvents true hs insts st evs).outcomes i = some o) ∧
    (∀ (st : RunState) (i : Nat) (inst : TestInstance), st.flag = false →
      insts[i]? = some inst → lookupOutcome st.outcomes i = none →
      lookupOutcome (stepEvent true hs insts st (SchedEvent.start i)).outcomes i =
        some (if inst.skip then Outcome.skipped else inst.procResult)) := by
  refine ⟨?_, ?_, ?_, ?_, ?_⟩
  · exact fun st evs h => runEvents_flag_mono true hs insts st evs h
  · intro st i hlk hfin
    rw [stepEvent]
    unfold finishStep
    rw [hlk]
    simp only [if_neg hfin]
    simp
  · intro st i inst hflag hinst hnone
    rw [stepEvent]
    unfold startStep
    rw [hinst, hnone, lookupOutcome_cons, if_pos rfl, hflag]
    cases hskip : inst.skip <;> simp [decideOutcome, hskip]
  · exact fun st evs i o h => runEvents_lookup_persist true hs insts st evs i o h
  · intro st i inst hflag hinst hnone
    rw [stepEvent]
    unfold startStep
    rw [hinst, hnone, lookupOutcome_cons, if_pos rfl, hflag]
    cases hskip : inst.skip <;> simp [decideOutcome, hskip]

/-- Witness for claim C3: a concrete two instance run; after the first
instance fails and finishes the flag is set, and the second instance,
starting afterwards, is recorded as skipped although its processor
result would have been passed. -/
theorem fail_fast_flag_semantics_witness :
    (stepEvent true true
        [{ skip := false, procResult := Outcome.failed },
         { skip := false, procResult := Outcome.passed }]
        { flag := false, outcomes := [(0, Outcome.failed)], finished := [],
          passed := 0, failed := 0, skipped := 0 }
        (SchedEvent.finish 0)).flag = true ∧
    lookupOutcome (stepEvent true true
        [{ skip := false, procResult := Outcome.failed },
         { skip := false, procResult := Outcome.passed }]
        { flag := true, outcomes := [(0, Outcome.failed)], finished := [0],
          passed := 0, failed := 1, skipped := 0 }
        (SchedEvent.start 1)).outcomes 1 = some Outcome.skipped := by
  have h := fail_fast_flag_semantics true
    [{ skip := false, procResult := Outcome.failed },
     { skip := false, procResult := Outcome.passed }]
  exact ⟨h.2.1 _ 0 rfl (by decide), h.2.2.1 _ 1 _ rfl rfl rfl⟩

/-- Number of finished instances whose recorded outcome is o. -/
def outcomeCount (st : RunState) (o : Outcome) : Nat :=
  st.finished.countP fun i => decide (lookupOutcome st.outcomes i = some o)

/-- Bookkeeping invariant of a run with a configured summary: each
counter equals the number of finished instances recorded with the
matching outcome, the three counters total the number of finished
instances, no instance finishes twice, and every finished instance has
a recorded outcome. -/
def CountersInv (st : RunState) : Prop :=
  st.passed = outcomeCount st .passed ∧
  st.failed = outcomeCount st .failed ∧
  st.skipped = outcomeCount st .skipped ∧
  st.passed + st.failed + st.skipped = st.finished.length ∧
  st.finished.Nodup ∧
  ∀ i ∈ st.finished, lookupOutcome st.outcomes i ≠ none

/-- Recorded outcomes always come from decideOutcome on the matching
instance; in particular an instance with the explicit Skip flag is
only ever recorded as skipped. -/
def SkipRespected (insts : List TestInstance) (st : RunState) : Prop :=
  ∀ i o inst, lookupOutcome st.outcomes i = some o → insts[i]? = some inst →
    inst.skip = true → o = Outcome.skipped

theorem countP_congr_mem (l : List Nat) (p q : Nat → Bool)
    (h : ∀ a ∈ l, p a = q a) : l.countP p = l.countP q := by
  induction l with
  | nil => rfl
  | cons a as ih =>
    rw [List.countP_cons, List.countP_cons, h a (by simp),
      ih fun b hb => h b (by simp [hb])]

theorem countersInv_startStep (ff : Bool) (insts : List TestInstance) (st : RunState)
    (i : Nat) (h : CountersInv st) : CountersInv (startStep ff insts st i) := by
  obtain ⟨h1, h2, h3, h4, h5, h6⟩ := h
  rcases hinst : insts[i]? with _ | inst
  · unfold startStep
    rw [hinst]
    exact ⟨h1, h2, h3, h4, h5, h6⟩
  · rcases hlk : lookupOutcome st.outcomes i with _ | o0
    · have hcong : ∀ o : Outcome,
          outcomeCount { st with outcomes := (i, decideOutcome ff st.flag inst) :: st.outcomes } o =
            outcomeCount st o := by
        intro o
        unfold outcomeCount
        apply countP_congr_mem
        intro a ha
        have hne : i ≠ a := by
          intro hia
          subst hia
          exact h6 _ ha hlk
        simp [lookupOutcome_cons, hne]
      unfold startStep
      rw [hinst, hlk]
      refine ⟨?_, ?_, ?_, h4, h5, ?_⟩
      · rw [hcong]; exact h1
      · rw [hcong]; exact h2
      · rw [hcong]; exact h3
      · intro a ha
        rw [lookupOutcome_cons]
        by_cases hia : i = a
        · simp [hia]
        · simp only [if_neg hia]
          exact h6 a ha
    · unfold startStep
      rw [hinst, hlk]
      exact ⟨h1, h2, h3, h4, h5, h6⟩

theorem outcomeCount_push {fl : Bool} {p f s : Nat} (st : RunState) (i : Nat)
    (o o' : Outcome) (hlk : lookupOutcome st.outcomes i = some o) :
    outcomeCount { flag := fl, outcomes := st.outcomes, finished := i :: st.finished,
                   passed := p, failed := f, skipped := s } o' =
      outcomeCount st o' + if o = o' then 1 else 0 := by
  unfold outcomeCount
  simp only [List.countP_cons, hlk]
  by_cases ho : o = o' <;> simp [ho]

theorem countersInv_finishStep (st : RunState) (i : Nat)
    (h : CountersInv st) : CountersInv (finishStep true st i) := by
  obtain ⟨h1, h2, h3, h4, h5, h6⟩ := h
  unfold finishStep
  split
  · exact ⟨h1, h2, h3, h4, h5, h6⟩
  · rename_i o hlk
    split
    · exact ⟨h1, h2, h3, h4, h5, h6⟩
    · rename_i hfin
      constructor
      · rw [outcomeCount_push st i o Outcome.passed hlk]
        by_cases ho : o = Outcome.passed <;> simp [ho, h1]
      constructor
      · rw [outcomeCount_push st i o Outcome.failed hlk]
        by_cases ho : o = Outcome.failed <;> simp [ho, h2]
      constructor
      · rw [outcomeCount_push st i o Outcome.skipped hlk]
        by_cases ho : o = Outcome.skipped <;> simp [ho, h3]
      constructor
      · simp only [List.length_cons]
        rcases o with _ | _ | _ <;> simp <;> omega
      constructor
      · exact List.nodup_cons.mpr ⟨hfin, h5⟩
      · intro a ha
        rcases List.mem_cons.mp ha with ha | ha
        · subst ha
          rw [hlk]
          simp
        · exact h6 a ha

theorem countersInv_stepEvent (ff : Bool) (insts : List TestInstance) (st : RunState)
    (e : SchedEvent) (h : CountersInv st) :
    CountersInv (stepEvent ff true insts st e) := by
  cases e with
  | start i => exact countersInv_startStep ff insts st i h
  | finish i => exact countersInv_finishStep st i h

theorem countersInv_runEvents (ff : Bool) (insts : List TestInstance) (st : RunState)
    (evs : List SchedEvent) (h : CountersInv st) :
    CountersInv (runEvents ff true insts st evs) := by
  induction evs generalizing st with
  | nil => exact h
  | cons e es ih => exact ih _ (countersInv_stepEvent ff insts st e h)

theorem countersInv_initState : CountersInv initState := by
  refine ⟨rfl, rfl, rfl, rfl, List.nodup_nil, ?_⟩
  intro i hi
  cases hi

theorem skipRespected_startStep (ff : Bool) (insts : List TestInstance) (st : RunState)
    (i : Nat) (h : SkipRespected insts st) :
    SkipRespected insts (startStep ff insts st i) := by
  rcases hinst : insts[i]? with _ | inst
  · unfold startStep
    rw [hinst]
    exact h
  · rcases hlk0 : lookupOutcome st.outcomes i with _ | o0
    · unfold startStep
      rw [hinst, hlk0]
      intro j o inst' hlk hinst' hskip
      rw [lookupOutcome_cons] at hlk
      by_cases hij : i = j
      · subst hij
        rw [if_pos rfl] at hlk
        rw [hinst] at hinst'
        cases hinst'
        cases hlk
        simp [decideOutcome, hskip]
      · rw [if_neg hij] at hlk
        exact h j o inst' hlk hinst' hskip
    · unfold startStep
      rw [hinst, hlk0]
      exact h

theorem skipRespected_stepEvent (ff hs : Bool) (insts : List TestInstance) (st : RunState)
    (e : SchedEvent) (h : SkipRespected insts st) :
    SkipRespected insts (stepEvent ff hs insts st e) := by
  cases e with
  | start i => exact skipRespected_startStep ff insts st i h
  | finish i =>
    intro j o inst hlk hinst hskip
    rw [stepEvent, finishStep_outcomes] at hlk
    exact h j o inst hlk hinst hskip

theorem skipRespected_runEvents (ff hs : Bool) (insts : List TestInstance) (st : RunState)
    (evs : List SchedEvent) (h : SkipRespected insts st) :
    SkipRespected insts (runEvents ff hs insts st evs) := by
  induction evs generalizing st with
  | nil => exact h
  | cons e es ih => exact ih _ (skipRespected_stepEvent ff hs insts st e h)

/-- Claim C9: in every run with a configured summary, each scheduled
instance whose scope has terminated contributes exactly one increment
to exactly one of the three outcome counters, however it terminated,
and an instance with the explicit Skip flag is only ever recorded as
skipped, never as failed. -/
theorem outcome_counters_exactly_once (ff : Bool) (insts : List TestInstance)
    (evs : List SchedEvent) (st : RunState)
    (hst : st = runEvents ff true insts initState evs) :
    (st.passed = outcomeCount st .passed ∧
     st.failed = outcomeCount st .failed ∧
     st.skipped = outcomeCount st .skipped ∧
     st.passed + st.failed + st.skipped = st.finished.length ∧
     st.finished.Nodup) ∧
    ∀ i o inst, lookupOutcome st.outcomes i = some o → insts[i]? = some inst →
      inst.skip = true → o = Outcome.skipped := by
  subst hst
  have h := countersInv_runEvents ff insts initState evs countersInv_initState
  have hsk := skipRespected_runEvents ff true insts initState evs
    (fun i o inst hlk _ _ => by cases i <;> cases hlk)
  exact ⟨⟨h.1, h.2.1, h.2.2.1, h.2.2.2.1, h.2.2.2.2.1⟩, hsk⟩

/-- Witness for claim C9: a concrete run of a skip flagged instance
and a failing instance; the counters read passed zero, failed one,
skipped one and total the two finished instances. -/
theorem outcome_counters_exactly_once_witness :
    ((runEvents false true
        [{ skip := true, procResult := Outcome.passed },
         { skip := false, procResult := Outcome.failed }]
        initState
        [SchedEvent.start 0, SchedEvent.finish 0, SchedEvent.start 1,
         SchedEvent.finish 1]).passed +
      (runEvents false true
        [{ skip := true, procResult := Outcome.passed },
         { skip := false, procResult := Outcome.failed }]
        initState
        [SchedEvent.start 0, SchedEvent.finish 0, SchedEvent.start 1,
         SchedEvent.finish 1]).failed +
      (runEvents false true
        [{ skip := true, procResult := Outcome.passed },
         { skip := false, procResult := Outcome.failed }]
        initState
        [SchedEvent.start 0, SchedEvent.finish 0, SchedEvent.start 1,
         SchedEvent.finish 1]).skipped) =
      (runEvents false true
        [{ skip := true, procResult := Outcome.passed },
         { skip := false, procResult := Outcome.failed }]
        initState
        [SchedEvent.start 0, SchedEvent.finish 0, SchedEvent.start 1,
         SchedEvent.finish 1]).finished.length := by
  have h := outcome_counters_exactly_once false
    [{ skip := true, procResult := Outcome.passed },
     { skip := false, procResult := Outcome.failed }]
    [SchedEvent.start 0, SchedEvent.finish 0, SchedEvent.start 1, SchedEvent.finish 1]
    _ rfl
  exact h.1.2.2.2.1

end Chainsaw
